import Mathlib

/-!
# Verification of the interrupt subsystem of go-tutl

Shallow embedding of `interrupt.go`: the package-level state
(`atInterrupt`, `running`, `skip` — `aiMu` is the single mutex guarding
them), the two operations `AtInterrupt` and `ShowStackOnInterrupt`, and
an event-trace model of their lock discipline.

`ShowStackOnInterrupt` is split at its single suspension point (the
blocking receive from the signal channel, line 45) into
`ShowStackOnInterrupt_enter` (lines 32-41: mode upgrade and the
`running` guard, executed atomically under `aiMu`) and
`ShowStackOnInterrupt_drain` (lines 47-65: snapshot, handler
invocation, termination).  Handlers are opaque values of a type `α`;
their observable behaviour is a function `run : α → Except String Unit`
(`Except.error m` models a panic with message `m` escaping the
handler).  Because every access to the shared state in the Go code is
a critical section under the one mutex `aiMu` (checked separately by
the trace model below), any concurrent execution of these operations
is equivalent to a sequential interleaving of these atomic steps, which
is what the state-transition functions model.
-/

namespace Tutl

/-- The package-level mutable state of `interrupt.go` (lines 12-15):
`atInterrupt` the registered handlers, `running` the watcher counter,
`skip` whether the fatal stack dump is skipped. -/
structure IState (α : Type) where
  atInterrupt : List α
  running : Nat
  skip : Bool
deriving Repr

/-- The initial values of the globals (lines 12-15):
`atInterrupt` empty, `running = 0`, `skip = true`. -/
def initState (α : Type) : IState α :=
  { atInterrupt := [], running := 0, skip := true }

/-- The loop of lines 50-52: `for i, ai := range l { cp[n-1-i] = ai }`,
run over the remaining elements `rest` with loop index `i`, destination
slice `cp`, and `n = len(atInterrupt)` fixed. -/
def revCopyLoop (n : Nat) : List α → Nat → List α → List α
  | cp, _, [] => cp
  | cp, i, ai :: rest => revCopyLoop n (cp.set (n - 1 - i) ai) (i + 1) rest

/-- Lines 49-52: `cp := make([]func(), len(atInterrupt))` followed by the
reversing loop.  The `make` fills the slice with zero values, modelled by
`default`. -/
def reversedCopy [Inhabited α] (l : List α) : List α :=
  revCopyLoop l.length (List.replicate l.length default) 0 l

/-- The termination step reached after draining (lines 60-65). -/
inductive TermAction where
  /-- Lines 61-62: `fmt.Fprintln(os.Stderr, "Interrupted.")` then
  `os.Exit(1)`. -/
  | quietExit
  /-- Lines 64-65: `debug.SetTraceback(traceback)` then `panic(msg)`,
  with `traceback = "all"` and `msg = "Interrupted"` in the source. -/
  | fatalPanic (traceback : String) (msg : String)
  /-- A panic escaping from a registered handler on line 57; the watcher
  has no recover, so it propagates out of `ShowStackOnInterrupt`. -/
  | handlerPanic (msg : String)
deriving Repr, DecidableEq

/-- The loop of lines 56-58: invoke the handlers of `cp` in order,
stopping at (and propagating) the first escaping panic.  Returns the
handlers actually invoked, in invocation order, and the escaping panic
message if any. -/
def runSeq (run : α → Except String Unit) : List α → List α × Option String
  | [] => ([], none)
  | a :: rest =>
    match run a with
    | Except.error m => ([a], some m)
    | Except.ok _ =>
      let r := runSeq run rest
      (a :: r.1, r.2)

/-- Lines 47-65 of `ShowStackOnInterrupt`, executed once the signal has
been received: under the lock build the reversed copy of `atInterrupt`
(lines 47-53), release the lock, invoke the copied handlers (lines
56-58), then terminate according to `skip` (lines 60-65).  Returns the
resulting global state, the handlers invoked in order, and the
termination action. -/
def ShowStackOnInterrupt_drain [Inhabited α] (run : α → Except String Unit)
    (s : IState α) : IState α × List α × TermAction :=
  let cp := reversedCopy s.atInterrupt
  let r := runSeq run cp
  match r.2 with
  | some m => (s, r.1, TermAction.handlerPanic m)
  | none =>
    if s.skip then (s, r.1, TermAction.quietExit)
    else (s, r.1, TermAction.fatalPanic "all" "Interrupted")

/-- Line 33: `0 == len(show) || show[0]` — whether this call requests
fatal (stack-showing) mode. -/
def fatalReq (shw : List Bool) : Bool :=
  shw.isEmpty || shw.headD false

/-- Lines 32-41 of `ShowStackOnInterrupt` (the part before the blocking
wait), executed atomically under `aiMu`: clear `skip` when fatal mode is
requested; if a watcher is already `running`, return (`false`);
otherwise increment `running` and proceed to subscribe and block
(`true`). -/
def ShowStackOnInterrupt_enter (shw : List Bool) (s : IState α) :
    IState α × Bool :=
  let s1 := if fatalReq shw then { s with skip := false } else s
  if 0 < s1.running then (s1, false)
  else ({ s1 with running := s1.running + 1 }, true)

/-- Lines 90-95: `AtInterrupt` appends the callback to `atInterrupt`
under the lock and returns the same callback. -/
def AtInterrupt (f : α) (s : IState α) : IState α × α :=
  ({ s with atInterrupt := s.atInterrupt ++ [f] }, f)

/-- A sequence of completed `AtInterrupt` calls (each one an atomic
critical section under `aiMu`). -/
def registerAll (fs : List α) (s : IState α) : IState α :=
  fs.foldl (fun s f => (AtInterrupt f s).1) s

/-- A sequence of completed `ShowStackOnInterrupt` entry sections (each
one an atomic critical section under `aiMu`); returns the final state
and, per call, whether that caller proceeded to block on the signal. -/
def enterSeq : List (List Bool) → IState α → IState α × List Bool
  | [], s => (s, [])
  | a :: rest, s =>
    let r := ShowStackOnInterrupt_enter a s
    let r2 := enterSeq rest r.1
    (r2.1, r.2 :: r2.2)

/-- The global state after a sequence of completed
`ShowStackOnInterrupt` entry sections with argument lists `args`,
followed by completed `AtInterrupt` registrations of `fs`, all starting
from the initial state, before the signal arrives. -/
def scenarioState (args : List (List Bool)) (fs : List α) : IState α :=
  registerAll fs (enterSeq args (initState α)).1

/-- Modelled from the spec: the observable effect of an uncaught panic.
The Go runtime's top-level crash handler is not part of this repository;
per the spec it prints the panic message to the diagnostic stream
followed by, when the traceback level is `"all"`, a stack-trace block
for every task (`taskStacks` is that per-task dump), and terminates the
process with status 2. -/
def panicObs (traceback : String) (msg : String)
    (taskStacks : List String) : Nat × List String :=
  (2, msg :: (if traceback = "all" then taskStacks else []))

/-- The process-exit observable (exit status, diagnostic-stream lines)
of each termination action.  The `quietExit` case is lines 61-62 of the
source (`fmt.Fprintln(os.Stderr, "Interrupted.")`, `os.Exit(1)`); the
panic cases defer to `panicObs`. -/
def termObs (taskStacks : List String) : TermAction → Nat × List String
  | TermAction.quietExit => (1, ["Interrupted."])
  | TermAction.fatalPanic tb msg => panicObs tb msg taskStacks
  | TermAction.handlerPanic msg => panicObs "single" msg taskStacks

/-! ### Event-trace model of the lock discipline

Each operation of `interrupt.go` is rendered as the sequence of its
accesses to the shared globals (`atInterrupt`, `running`, `skip`),
its acquisitions and releases of the single mutex `aiMu`, its blocking
receive from the signal channel, and its handler invocations, in
source order. -/

/-- The shared globals of `interrupt.go` (lines 12-15). -/
inductive GVar where
  | atInterruptV
  | runningV
  | skipV
deriving Repr, DecidableEq

/-- One step of an operation, as it touches the shared state. -/
inductive Ev where
  | lock
  | unlock
  | readG (v : GVar)
  | writeG (v : GVar)
  | callHandler
  | blockOnSignal
deriving Repr, DecidableEq

/-- Whether an event writes a shared global. -/
def Ev.isWriteEv : Ev → Bool
  | Ev.writeG _ => true
  | _ => false

/-- Annotate each event of a trace with whether the mutex is held while
it executes (`h` is whether the mutex is held on entry; a `lock` event
itself completes with the mutex held, an `unlock` with it released). -/
def underLock : Bool → List Ev → List (Ev × Bool)
  | _, [] => []
  | _, Ev.lock :: tr => (Ev.lock, true) :: underLock true tr
  | h, Ev.unlock :: tr => (Ev.unlock, h) :: underLock false tr
  | h, e :: tr => (e, h) :: underLock h tr

/-- The shared globals read while the mutex is not held. -/
def unprotectedReads (tr : List Ev) : List GVar :=
  (underLock false tr).filterMap fun p =>
    match p with
    | (Ev.readG v, false) => some v
    | _ => none

/-- The shared globals written while the mutex is not held. -/
def unprotectedWrites (tr : List Ev) : List GVar :=
  (underLock false tr).filterMap fun p =>
    match p with
    | (Ev.writeG v, false) => some v
    | _ => none

/-- Whether some handler is invoked while the mutex is held. -/
def handlerHeldLocked (tr : List Ev) : Bool :=
  (underLock false tr).any fun p => p.1 = Ev.callHandler && p.2

/-- The trace of `AtInterrupt` (lines 90-95): lock (line 91, released by
the deferred unlock of line 92), read and write `atInterrupt` for the
append (line 93). -/
def AtInterruptTrace : List Ev :=
  [Ev.lock, Ev.readG GVar.atInterruptV, Ev.writeG GVar.atInterruptV,
   Ev.unlock]

/-- The trace of an early-returning `ShowStackOnInterrupt` call (lines
32-38): lock, optional write of `skip` (lines 33-35), read of `running`
(line 36), unlock, return. -/
def ssoiEarlyTrace (fatal : Bool) : List Ev :=
  [Ev.lock] ++ (if fatal then [Ev.writeG GVar.skipV] else [])
  ++ [Ev.readG GVar.runningV, Ev.unlock]

/-- The drain phase of the watcher (lines 47-65) with `n` registered
handlers: lock, read `atInterrupt` into the fresh local copy `cp`
(lines 47-53; `cp` itself is not shared state), unlock, invoke the `n`
copied handlers without the lock (lines 56-58), then read `skip` for
the termination decision (line 60) — also without the lock. -/
def ssoiDrainTrace (n : Nat) : List Ev :=
  [Ev.lock, Ev.readG GVar.atInterruptV, Ev.unlock]
  ++ List.replicate n Ev.callHandler
  ++ [Ev.readG GVar.skipV]

/-- The full trace of the winning (watcher) `ShowStackOnInterrupt` call:
lock, optional write of `skip` (lines 33-35), read of `running` (line
36), write of `running` (line 40), unlock (line 41), block on the
signal (lines 43-45), then the drain phase. -/
def ssoiWatcherTrace (fatal : Bool) (n : Nat) : List Ev :=
  [Ev.lock] ++ (if fatal then [Ev.writeG GVar.skipV] else [])
  ++ [Ev.readG GVar.runningV, Ev.writeG GVar.runningV, Ev.unlock,
      Ev.blockOnSignal]
  ++ ssoiDrainTrace n

/-! ### Basic lemmas about the reversing loop -/

theorem revCopyLoop_spec [Inhabited α] :
    ∀ (rest : List α) (i : Nat) (cp : List α), i + rest.length = cp.length →
      revCopyLoop cp.length cp i rest = rest.reverse ++ cp.drop rest.length
  | [], i, cp, _ => by simp [revCopyLoop]
  | ai :: rest, i, cp, h => by
    have hn : cp.length - 1 - i = rest.length := by
      simp at h; omega
    have hlen : rest.length < cp.length := by simp at h; omega
    have hset : (cp.set (rest.length) ai).length = cp.length := by simp
    have ih := revCopyLoop_spec (α := α) rest (i + 1) (cp.set rest.length ai)
      (by simp; simp at h; omega)
    rw [hset] at ih
    have hdrop : (cp.set rest.length ai).drop rest.length =
        ai :: cp.drop (rest.length + 1) := by
      rw [List.drop_eq_getElem_cons (by simpa using hlen)]
      congr 1
      · simp [List.getElem_set]
      · apply List.ext_getElem?
        intro k
        simp [List.getElem?_drop, List.getElem?_set]
        omega
    calc revCopyLoop cp.length cp i (ai :: rest)
        = revCopyLoop cp.length (cp.set (cp.length - 1 - i) ai) (i + 1) rest := rfl
      _ = revCopyLoop cp.length (cp.set rest.length ai) (i + 1) rest := by rw [hn]
      _ = rest.reverse ++ (cp.set rest.length ai).drop rest.length := ih
      _ = rest.reverse ++ (ai :: cp.drop (rest.length + 1)) := by rw [hdrop]
      _ = (ai :: rest).reverse ++ cp.drop (ai :: rest).length := by
          simp

/-- The Go loop of lines 49-52 produces exactly the reverse of the
registered-handler slice. -/
theorem reversedCopy_eq_reverse [Inhabited α] (l : List α) :
    reversedCopy l = l.reverse := by
  unfold reversedCopy
  have h := revCopyLoop_spec (α := α) l 0 (List.replicate l.length default)
    (by simp)
  simp at h
  simpa using h

/-! ### Lemmas about the handler-invocation loop -/

theorem runSeq_all_ok (run : α → Except String Unit) :
    ∀ (l : List α), (∀ f ∈ l, run f = Except.ok ()) →
      runSeq run l = (l, none)
  | [], _ => rfl
  | a :: rest, h => by
    have ha : run a = Except.ok () := h a (by simp)
    have ih := runSeq_all_ok run rest (fun f hf => h f (by simp [hf]))
    simp [runSeq, ha, ih]

theorem runSeq_panic (run : α → Except String Unit) :
    ∀ (pre : List α) (g : α) (post : List α) (m : String),
      (∀ f ∈ pre, run f = Except.ok ()) → run g = Except.error m →
      runSeq run (pre ++ g :: post) = (pre ++ [g], some m)
  | [], g, post, m, _, hg => by simp [runSeq, hg]
  | a :: pre, g, post, m, hpre, hg => by
    have ha : run a = Except.ok () := hpre a (by simp)
    have ih := runSeq_panic run pre g post m
      (fun f hf => hpre f (by simp [hf])) hg
    simp [runSeq, ha, ih]

/-! ### Lemmas about registration and the entry section -/

theorem registerAll_state (fs : List α) (s : IState α) :
    registerAll fs s =
      { s with atInterrupt := s.atInterrupt ++ fs } := by
  induction fs generalizing s with
  | nil => simp [registerAll]
  | cons f fs ih =>
    simp only [registerAll, List.foldl_cons] at *
    rw [ih]
    simp [AtInterrupt]

theorem enter_skip (a : List Bool) (s : IState α) :
    (ShowStackOnInterrupt_enter a s).1.skip = (s.skip && !fatalReq a) := by
  unfold ShowStackOnInterrupt_enter
  by_cases h : fatalReq a <;> simp [h] <;> split <;> simp

theorem enter_atInterrupt (a : List Bool) (s : IState α) :
    (ShowStackOnInterrupt_enter a s).1.atInterrupt = s.atInterrupt := by
  unfold ShowStackOnInterrupt_enter
  by_cases h : fatalReq a <;> simp [h] <;> split <;> simp

theorem enterSeq_skip (args : List (List Bool)) (s : IState α) :
    (enterSeq args s).1.skip = (s.skip && !(args.any fatalReq)) := by
  induction args generalizing s with
  | nil => simp [enterSeq]
  | cons a args ih =>
    simp only [enterSeq]
    rw [ih, enter_skip]
    simp [Bool.and_assoc]

theorem enterSeq_atInterrupt (args : List (List Bool)) (s : IState α) :
    (enterSeq args s).1.atInterrupt = s.atInterrupt := by
  induction args generalizing s with
  | nil => simp [enterSeq]
  | cons a args ih =>
    simp only [enterSeq]
    rw [ih, enter_atInterrupt]

theorem enter_running_pos (a : List Bool) (s : IState α)
    (h : 0 < s.running) :
    ShowStackOnInterrupt_enter a s =
      ((ShowStackOnInterrupt_enter a s).1, false) ∧
      (ShowStackOnInterrupt_enter a s).1.running = s.running := by
  unfold ShowStackOnInterrupt_enter
  by_cases hf : fatalReq a <;> simp [hf, h]

theorem enterSeq_running_pos (args : List (List Bool)) (s : IState α)
    (h : 0 < s.running) :
    (enterSeq args s).2.count true = 0 ∧
      (enterSeq args s).1.running = s.running := by
  induction args generalizing s with
  | nil => simp [enterSeq]
  | cons a args ih =>
    obtain ⟨heq, hrun⟩ := enter_running_pos a s h
    have ih2 := ih (ShowStackOnInterrupt_enter a s).1 (hrun ▸ h)
    simp only [enterSeq]
    constructor
    · rw [show (ShowStackOnInterrupt_enter a s).2 = false by
        rw [heq]]
      simp [ih2.1]
    · rw [ih2.2, hrun]

theorem enter_running_zero (a : List Bool) (s : IState α)
    (h : s.running = 0) :
    (ShowStackOnInterrupt_enter a s).2 = true ∧
      (ShowStackOnInterrupt_enter a s).1.running = 1 := by
  unfold ShowStackOnInterrupt_enter
  by_cases hf : fatalReq a <;> simp [hf, h]

theorem underLock_replicate_callHandler (h : Bool) (n : Nat)
    (rest : List Ev) :
    underLock h (List.replicate n Ev.callHandler ++ rest) =
      List.replicate n (Ev.callHandler, h) ++ underLock h rest := by
  induction n with
  | zero => simp
  | succ n ih => simp [List.replicate_succ, underLock, ih]

theorem unprotectedReads_drain (n : Nat) :
    unprotectedReads (ssoiDrainTrace n) = [GVar.skipV] := by
  unfold unprotectedReads ssoiDrainTrace
  simp only [List.cons_append, List.nil_append]
  rw [show underLock false
      (Ev.lock :: Ev.readG GVar.atInterruptV :: Ev.unlock ::
        (List.replicate n Ev.callHandler ++ [Ev.readG GVar.skipV])) =
      [(Ev.lock, true), (Ev.readG GVar.atInterruptV, true),
       (Ev.unlock, true)] ++
      underLock false
        (List.replicate n Ev.callHandler ++ [Ev.readG GVar.skipV]) from
    rfl]
  rw [underLock_replicate_callHandler]
  simp [List.filterMap_append, List.filterMap_replicate, underLock]

theorem unprotectedWrites_drain (n : Nat) :
    unprotectedWrites (ssoiDrainTrace n) = [] := by
  unfold unprotectedWrites ssoiDrainTrace
  simp only [List.cons_append, List.nil_append]
  rw [show underLock false
      (Ev.lock :: Ev.readG GVar.atInterruptV :: Ev.unlock ::
        (List.replicate n Ev.callHandler ++ [Ev.readG GVar.skipV])) =
      [(Ev.lock, true), (Ev.readG GVar.atInterruptV, true),
       (Ev.unlock, true)] ++
      underLock false
        (List.replicate n Ev.callHandler ++ [Ev.readG GVar.skipV]) from
    rfl]
  rw [underLock_replicate_callHandler]
  simp [List.filterMap_append, List.filterMap_replicate, underLock]

theorem handlerHeldLocked_drain (n : Nat) :
    handlerHeldLocked (ssoiDrainTrace n) = false := by
  unfold handlerHeldLocked ssoiDrainTrace
  simp only [List.cons_append, List.nil_append]
  rw [show underLock false
      (Ev.lock :: Ev.readG GVar.atInterruptV :: Ev.unlock ::
        (List.replicate n Ev.callHandler ++ [Ev.readG GVar.skipV])) =
      [(Ev.lock, true), (Ev.readG GVar.atInterruptV, true),
       (Ev.unlock, true)] ++
      underLock false
        (List.replicate n Ev.callHandler ++ [Ev.readG GVar.skipV]) from
    rfl]
  rw [underLock_replicate_callHandler]
  simp [List.any_append, List.any_replicate, underLock]

theorem underLock_watcher (fatal : Bool) (n : Nat) :
    underLock false (ssoiWatcherTrace fatal n) =
      (if fatal then
        [(Ev.lock, true), (Ev.writeG GVar.skipV, true),
         (Ev.readG GVar.runningV, true), (Ev.writeG GVar.runningV, true),
         (Ev.unlock, true), (Ev.blockOnSignal, false)]
      else
        [(Ev.lock, true),
         (Ev.readG GVar.runningV, true), (Ev.writeG GVar.runningV, true),
         (Ev.unlock, true), (Ev.blockOnSignal, false)])
      ++ underLock false (ssoiDrainTrace n) := by
  cases fatal <;> rfl

theorem unprotectedReads_watcher (fatal : Bool) (n : Nat) :
    unprotectedReads (ssoiWatcherTrace fatal n) = [GVar.skipV] := by
  have hd := unprotectedReads_drain n
  unfold unprotectedReads at *
  rw [underLock_watcher, List.filterMap_append, hd]
  cases fatal <;> simp

theorem unprotectedWrites_watcher (fatal : Bool) (n : Nat) :
    unprotectedWrites (ssoiWatcherTrace fatal n) = [] := by
  have hd := unprotectedWrites_drain n
  unfold unprotectedWrites at *
  rw [underLock_watcher, List.filterMap_append, hd]
  cases fatal <;> simp

theorem handlerHeldLocked_watcher (fatal : Bool) (n : Nat) :
    handlerHeldLocked (ssoiWatcherTrace fatal n) = false := by
  have hd := handlerHeldLocked_drain n
  unfold handlerHeldLocked at *
  rw [underLock_watcher, List.any_append, hd]
  cases fatal <;> simp

theorem scenarioState_atInterrupt (args : List (List Bool))
    (fs : List α) : (scenarioState args fs).atInterrupt = fs := by
  unfold scenarioState
  rw [registerAll_state]
  simp [enterSeq_atInterrupt, initState]

theorem scenarioState_skip (args : List (List Bool)) (fs : List α) :
    (scenarioState args fs : IState α).skip = !(args.any fatalReq) := by
  unfold scenarioState
  rw [registerAll_state]
  simp [enterSeq_skip, initState]

/-! ### The claims -/

/-- C1: for every sequence of calls to `AtInterrupt` registering
`f_1..f_N` (starting from an empty registry), all completing before the
signal arrives, and none of whose handlers panics, the draining phase
of `ShowStackOnInterrupt` invokes exactly those handlers, each exactly
once, in exactly reverse registration order `f_N, ..., f_1`. -/
theorem c1_drain_reverse_order [Inhabited α] (run : α → Except String Unit)
    (s : IState α) (fs : List α) (h0 : s.atInterrupt = [])
    (hok : ∀ f ∈ fs, run f = Except.ok ()) :
    (ShowStackOnInterrupt_drain run (registerAll fs s)).2.1 = fs.reverse := by
  have hcp : reversedCopy (registerAll fs s).atInterrupt = fs.reverse := by
    rw [registerAll_state]
    simp [reversedCopy_eq_reverse, h0]
  have hok2 : ∀ f ∈ fs.reverse, run f = Except.ok () := fun f hf =>
    hok f (List.mem_reverse.mp hf)
  unfold ShowStackOnInterrupt_drain
  simp only [hcp, runSeq_all_ok run fs.reverse hok2]
  by_cases hs : (registerAll fs s).skip <;> simp [hs]

theorem c1_drain_reverse_order_witness :
    (ShowStackOnInterrupt_drain (fun _ : Nat => Except.ok ())
      (registerAll [1, 2, 3] (initState Nat))).2.1 = [1, 2, 3].reverse :=
  c1_drain_reverse_order (fun _ => Except.ok ()) (initState Nat) [1, 2, 3]
    rfl (fun _ _ => rfl)

/-- C2: among any (nonempty) sequence of `ShowStackOnInterrupt` entry
sections starting from a state with no watcher running, exactly one
caller proceeds to block waiting for the signal (one subscription), and
the watcher count ends at one — every other call returns without
establishing a second subscription. -/
theorem c2_single_watcher (args : List (List Bool)) (s : IState α)
    (h0 : s.running = 0) (hne : args ≠ []) :
    (enterSeq args s).2.count true = 1 ∧
      (enterSeq args s).1.running = 1 := by
  cases args with
  | nil => exact absurd rfl hne
  | cons a rest =>
    obtain ⟨hb, hr⟩ := enter_running_zero a s h0
    have hrest := enterSeq_running_pos rest (ShowStackOnInterrupt_enter a s).1
      (by rw [hr]; norm_num)
    simp only [enterSeq]
    refine ⟨?_, by rw [hrest.2, hr]⟩
    rw [hb]
    simp [List.count_cons, hrest.1]

theorem c2_single_watcher_witness :
    (enterSeq [[true], [false], []] (initState Nat)).2.count true = 1 ∧
      (enterSeq [[true], [false], []] (initState Nat)).1.running = 1 :=
  c2_single_watcher [[true], [false], []] (initState Nat) rfl (by simp)

/-- C3: the fatal/quiet mode flag is a monotonic upgrade — if any entry
section in the sequence requests fatal mode then `skip` ends false
(fatal), no matter how many other calls pass `false`; and a quiet-mode
call never clears a previously-set fatal mode (`skip = false` is
preserved by every sequence of entry sections). -/
theorem c3_fatal_mode_monotonic (args : List (List Bool)) (s : IState α) :
    (args.any fatalReq = true → (enterSeq args s).1.skip = false) ∧
      (s.skip = false → (enterSeq args s).1.skip = false) := by
  simp only [enterSeq_skip]
  constructor <;> intro h <;> simp [h]

theorem c3_fatal_mode_monotonic_witness :
    ((enterSeq [[false], [true], [false]] (initState Nat)).1.skip = false)
      ∧ ((enterSeq [[false]]
          ({ atInterrupt := [], running := 1, skip := false } :
            IState Nat)).1.skip = false) :=
  ⟨(c3_fatal_mode_monotonic [[false], [true], [false]]
      (initState Nat)).1 (by decide),
    (c3_fatal_mode_monotonic [[false]]
      { atInterrupt := [], running := 1, skip := false }).2 rfl⟩

/-- C4: if some `ShowStackOnInterrupt` call requested fatal mode and
the signal is delivered, then once every handler has returned the
watcher sets the traceback level to `"all"` (maximal detail for all
tasks) and panics with the literal marker `"Interrupted"`; the
resulting diagnostic stream contains `"Interrupted"` plus every task's
stack-trace block, and the process exits with status 2. -/
theorem c4_fatal_termination [Inhabited α] (run : α → Except String Unit)
    (args : List (List Bool)) (fs : List α) (taskStacks : List String)
    (hfatal : args.any fatalReq = true)
    (hok : ∀ f ∈ fs, run f = Except.ok ()) :
    (ShowStackOnInterrupt_drain run (scenarioState args fs)).2.2 =
        TermAction.fatalPanic "all" "Interrupted" ∧
      (termObs taskStacks
        (ShowStackOnInterrupt_drain run (scenarioState args fs)).2.2).1
        = 2 ∧
      "Interrupted" ∈ (termObs taskStacks
        (ShowStackOnInterrupt_drain run (scenarioState args fs)).2.2).2 ∧
      ∀ st ∈ taskStacks, st ∈ (termObs taskStacks
        (ShowStackOnInterrupt_drain run (scenarioState args fs)).2.2).2 := by
  have hok2 : ∀ f ∈ reversedCopy (scenarioState args fs).atInterrupt,
      run f = Except.ok () := by
    rw [reversedCopy_eq_reverse, scenarioState_atInterrupt]
    exact fun f hf => hok f (List.mem_reverse.mp hf)
  have hskip : (scenarioState args fs : IState α).skip = false := by
    rw [scenarioState_skip, hfatal]
    rfl
  have hact : (ShowStackOnInterrupt_drain run (scenarioState args fs)).2.2
      = TermAction.fatalPanic "all" "Interrupted" := by
    unfold ShowStackOnInterrupt_drain
    simp only [runSeq_all_ok run _ hok2, hskip]
    simp
  refine ⟨hact, ?_, ?_, ?_⟩ <;> rw [hact]
  · rfl
  · simp [termObs, panicObs]
  · simp only [termObs, panicObs]
    exact fun st hst => List.mem_cons_of_mem _ hst

theorem c4_fatal_termination_witness :
    (ShowStackOnInterrupt_drain (fun _ : Nat => Except.ok ())
        (scenarioState [[false], []] [7, 8])).2.2 =
        TermAction.fatalPanic "all" "Interrupted" ∧
      (termObs ["goroutine 1 stack"]
        (ShowStackOnInterrupt_drain (fun _ : Nat => Except.ok ())
          (scenarioState [[false], []] [7, 8])).2.2).1 = 2 ∧
      "Interrupted" ∈ (termObs ["goroutine 1 stack"]
        (ShowStackOnInterrupt_drain (fun _ : Nat => Except.ok ())
          (scenarioState [[false], []] [7, 8])).2.2).2 ∧
      ∀ st ∈ ["goroutine 1 stack"], st ∈ (termObs ["goroutine 1 stack"]
        (ShowStackOnInterrupt_drain (fun _ : Nat => Except.ok ())
          (scenarioState [[false], []] [7, 8])).2.2).2 :=
  c4_fatal_termination (fun _ => Except.ok ()) [[false], []] [7, 8]
    ["goroutine 1 stack"] (by decide) (fun _ _ => rfl)

/-- C5: if only quiet-mode `ShowStackOnInterrupt(false)` calls occur and
the signal is delivered, then once every handler has returned the
watcher prints exactly the one-line notice `"Interrupted."` to the
standard error stream and exits with status 1, emitting no stack
trace. -/
theorem c5_quiet_termination [Inhabited α] (run : α → Except String Unit)
    (args : List (List Bool)) (fs : List α) (taskStacks : List String)
    (hquiet : args.any fatalReq = false)
    (hok : ∀ f ∈ fs, run f = Except.ok ()) :
    (ShowStackOnInterrupt_drain run (scenarioState args fs)).2.2 =
        TermAction.quietExit ∧
      termObs taskStacks
        (ShowStackOnInterrupt_drain run (scenarioState args fs)).2.2
        = (1, ["Interrupted."]) := by
  have hok2 : ∀ f ∈ reversedCopy (scenarioState args fs).atInterrupt,
      run f = Except.ok () := by
    rw [reversedCopy_eq_reverse, scenarioState_atInterrupt]
    exact fun f hf => hok f (List.mem_reverse.mp hf)
  have hskip : (scenarioState args fs : IState α).skip = true := by
    rw [scenarioState_skip, hquiet]
    rfl
  have hact : (ShowStackOnInterrupt_drain run (scenarioState args fs)).2.2
      = TermAction.quietExit := by
    unfold ShowStackOnInterrupt_drain
    simp only [runSeq_all_ok run _ hok2, hskip]
    simp
  exact ⟨hact, by rw [hact]; rfl⟩

theorem c5_quiet_termination_witness :
    (ShowStackOnInterrupt_drain (fun _ : Nat => Except.ok ())
        (scenarioState [[false], [false]] [7, 8])).2.2 =
        TermAction.quietExit ∧
      termObs ["goroutine 1 stack"]
        (ShowStackOnInterrupt_drain (fun _ : Nat => Except.ok ())
          (scenarioState [[false], [false]] [7, 8])).2.2
        = (1, ["Interrupted."]) :=
  c5_quiet_termination (fun _ => Except.ok ()) [[false], [false]] [7, 8]
    ["goroutine 1 stack"] (by decide) (fun _ _ => rfl)

/-- C7: a panic escaping from any registered handler during draining is
not caught by the watcher — it propagates, preempting both the
remaining handlers in the reversed snapshot and the termination logic
(neither the quiet exit nor the fatal panic is reached). -/
theorem c7_handler_panic_propagates [Inhabited α]
    (run : α → Except String Unit) (s : IState α) (pre post : List α)
    (g : α) (m : String) (hdec : s.atInterrupt.reverse = pre ++ g :: post)
    (hpre : ∀ f ∈ pre, run f = Except.ok ())
    (hg : run g = Except.error m) :
    (ShowStackOnInterrupt_drain run s).2.1 = pre ++ [g] ∧
      (ShowStackOnInterrupt_drain run s).2.2 = TermAction.handlerPanic m ∧
      (ShowStackOnInterrupt_drain run s).2.2 ≠ TermAction.quietExit ∧
      ∀ tb msg, (ShowStackOnInterrupt_drain run s).2.2 ≠
        TermAction.fatalPanic tb msg := by
  have hcp : reversedCopy s.atInterrupt = pre ++ g :: post := by
    rw [reversedCopy_eq_reverse, hdec]
  unfold ShowStackOnInterrupt_drain
  simp only [hcp, runSeq_panic run pre g post m hpre hg]
  simp

theorem c7_handler_panic_propagates_witness :
    (ShowStackOnInterrupt_drain
        (fun k : Nat => if k = 2 then Except.error "boom" else Except.ok ())
        ({ atInterrupt := [1, 2, 3], running := 1, skip := true } :
          IState Nat)).2.1 = [3] ++ [2] ∧
      (ShowStackOnInterrupt_drain
        (fun k : Nat => if k = 2 then Except.error "boom" else Except.ok ())
        ({ atInterrupt := [1, 2, 3], running := 1, skip := true } :
          IState Nat)).2.2 = TermAction.handlerPanic "boom" ∧
      (ShowStackOnInterrupt_drain
        (fun k : Nat => if k = 2 then Except.error "boom" else Except.ok ())
        ({ atInterrupt := [1, 2, 3], running := 1, skip := true } :
          IState Nat)).2.2 ≠ TermAction.quietExit ∧
      ∀ tb msg, (ShowStackOnInterrupt_drain
        (fun k : Nat => if k = 2 then Except.error "boom" else Except.ok ())
        ({ atInterrupt := [1, 2, 3], running := 1, skip := true } :
          IState Nat)).2.2 ≠ TermAction.fatalPanic tb msg :=
  c7_handler_panic_propagates
    (fun k : Nat => if k = 2 then Except.error "boom" else Except.ok ())
    { atInterrupt := [1, 2, 3], running := 1, skip := true }
    [3] [1] 2 "boom" rfl (fun f hf => by fin_cases hf; rfl) rfl

/-- C6 counterexample: the claim says the only unprotected read during
`ShowStackOnInterrupt` is of each handler function value; but in the
watcher's trace (here with fatal mode requested and one registered
handler) a shared global — `skip`, read on line 60 for the termination
decision — is read while the mutex is not held. -/
theorem c6_counterexample :
    unprotectedReads (ssoiWatcherTrace true 1) ≠ [] := by decide

/-- C6 amended: all writes of the shared globals, in every operation,
happen while holding the single mutex, and the mutex is never held
across a handler invocation (the drain snapshot is built under the
lock, which is released before any handler runs); the unprotected reads
are of each handler function value during invocation and, in addition,
of the fatal-mode flag `skip` in the final termination decision (line
60), which is the one shared-global read outside the lock. -/
theorem c6_lock_discipline (fatal : Bool) (n : Nat) :
    unprotectedWrites (ssoiWatcherTrace fatal n) = [] ∧
      unprotectedReads (ssoiWatcherTrace fatal n) = [GVar.skipV] ∧
      handlerHeldLocked (ssoiWatcherTrace fatal n) = false ∧
      unprotectedReads AtInterruptTrace = [] ∧
      unprotectedWrites AtInterruptTrace = [] ∧
      unprotectedReads (ssoiEarlyTrace fatal) = [] ∧
      unprotectedWrites (ssoiEarlyTrace fatal) = [] := by
  refine ⟨unprotectedWrites_watcher fatal n,
    unprotectedReads_watcher fatal n,
    handlerHeldLocked_watcher fatal n,
    by decide, by decide, ?_, ?_⟩ <;> cases fatal <;> decide

/-- C8: for every callback `f`, `AtInterrupt f` always succeeds (it is
a total function with no error outcome), appends `f` to the end of the
ordered handler sequence, leaves the other fields untouched, and
returns the identical callback `f` unchanged to the caller. -/
theorem c8_atInterrupt_append_return (f : α) (s : IState α) :
    (AtInterrupt f s).2 = f ∧
      (AtInterrupt f s).1.atInterrupt = s.atInterrupt ++ [f] ∧
      (AtInterrupt f s).1.atInterrupt.getLast? = some f ∧
      (AtInterrupt f s).1.atInterrupt.length = s.atInterrupt.length + 1 ∧
      (AtInterrupt f s).1.running = s.running ∧
      (AtInterrupt f s).1.skip = s.skip := by
  refine ⟨rfl, rfl, ?_, by simp [AtInterrupt], rfl, rfl⟩
  simp [AtInterrupt]

/-- C9: calling `ShowStackOnInterrupt` with no argument is the same
entry-section transition as calling it with explicit argument `true`:
both request fatal mode. -/
theorem c9_no_arg_is_fatal (s : IState α) :
    ShowStackOnInterrupt_enter [] s = ShowStackOnInterrupt_enter [true] s :=
  rfl

/-- C10: draining operates only on the freshly built reversed copy of
the handler sequence — the drain leaves the whole registry state
(including `atInterrupt` itself: its length, elements and order)
unchanged, the snapshot equals the reverse of the registered sequence,
and the drain phase's trace performs no write to any shared global. -/
theorem c10_drain_frame [Inhabited α] (run : α → Except String Unit)
    (s : IState α) :
    (ShowStackOnInterrupt_drain run s).1 = s ∧
      reversedCopy s.atInterrupt = s.atInterrupt.reverse ∧
      (ssoiDrainTrace s.atInterrupt.length).all
        (fun e => ! e.isWriteEv) = true := by
  refine ⟨?_, reversedCopy_eq_reverse _, ?_⟩
  · unfold ShowStackOnInterrupt_drain
    cases h : (runSeq run (reversedCopy s.atInterrupt)).2 with
    | none => by_cases hs : s.skip <;> simp [h, hs]
    | some m => simp [h]
  · rw [List.all_eq_true]
    intro e he
    cases e
    case writeG v =>
      exfalso
      unfold ssoiDrainTrace at he
      simp [List.mem_replicate] at he
    all_goals simp [Ev.isWriteEv]

end Tutl
